import Mathlib

/-!
Shallow embedding of the STAC Python API client wrapper (`stac/stac.py`).

The client class `STAC` holds a normalized server URL, an optional access-token
query suffix, a mutable collection cache (a Python `dict` mapping collection
identifiers to either `None` — an unresolved placeholder — or a resolved
`Collection` object), and a cached `Catalog`.  The HTTP transport
(`Utils._get`) is modelled as an oracle `Server : Request → Option Json`
where `none` stands for a non-2xx response (an `HTTPError`).  Every operation
returns its Python result (`Except PyError α`), the client state after the
call (Python mutates `self` in place, including on paths that end in a raised
exception), and the list of network requests the call issued.

Strings are manipulated through their character lists, mirroring Python
string semantics (`in`, `split`, `index`, slicing) code-point by code-point.
-/

namespace StacPy

/-- A link descriptor of a catalog document: a relation-type tag (`rel`) and a
target reference (`href`). -/
structure Link where
  rel : String
  href : String
deriving DecidableEq, Repr

/-- Parsed JSON returned by the transport.  The only structure the client ever
inspects is the ordered link sequence of a catalog document; everything else
is carried as an opaque payload. -/
structure Json where
  links : List Link
  payload : String
deriving DecidableEq, Repr

/-- Modelled from the spec: the `Catalog` resource wrapper (file
`stac/catalog.py`, which is not under `src/`) is a read-only pass-through view
of the root catalog JSON; its attribute of interest is the ordered sequence of
link descriptors. -/
structure Catalog where
  data : Json
  validate : Bool
deriving DecidableEq, Repr

/-- The catalog's ordered link sequence (attribute `links`). -/
def Catalog.links (c : Catalog) : List Link := c.data.links

/-- Modelled from the spec: the `Collection` resource wrapper (file
`stac/collection.py`, which is not under `src/`) is a read-only pass-through
view of a single collection's JSON metadata. -/
structure Collection where
  data : Json
  validate : Bool
deriving DecidableEq, Repr

/-- Modelled from the spec: the `ItemCollection` resource wrapper (file
`stac/item.py`, which is not under `src/`) is a read-only pass-through view of
a GeoJSON FeatureCollection returned by a search. -/
structure ItemCollection where
  data : Json
  validate : Bool
deriving DecidableEq, Repr

/-- The Python exceptions the client can surface: a propagated transport
`HTTPError`, a `ValueError` (from `str.index` on a missing substring), and the
`KeyError` raised by `STAC.collection`. -/
inductive PyError where
  | httpError (url : String)
  | valueError (msg : String)
  | keyError (msg : String)
deriving DecidableEq, Repr

/-- Query parameters of a search request (the `filter` dictionary). -/
abbrev Filter := List (String × String)

/-- A network request: the URL and the optional query-parameter mapping passed
to `Utils._get`. -/
abbrev Request := String × Option Filter

/-- The transport oracle: `none` models an `HTTPError` (non-2xx response),
`some data` the parsed JSON of a successful response. -/
abbrev Server := Request → Option Json

/-- Index of the first occurrence of `c`, as in Python `str.index` /
`str.find`. -/
def charIdx (c : Char) : List Char → Option Nat
  | [] => none
  | a :: as => if a = c then some 0 else (charIdx c as).map Nat.succ

/-- Split on a separator character, as in Python `str.split(sep)` with an
explicit one-character separator: the empty string yields `[[]]`, and empty
fields are kept. -/
def splitOnChar (c : Char) : List Char → List (List Char)
  | [] => [[]]
  | a :: as =>
    match splitOnChar c as with
    | [] => if a = c then [[], []] else [[a]]
    | g :: gs => if a = c then [] :: g :: gs else (a :: g) :: gs

/-- Python `s.split(c)` on a string. -/
def strSplit (s : String) (c : Char) : List String :=
  (splitOnChar c s.data).map String.mk

/-- Python `c in s` on a string. -/
def strContains (s : String) (c : Char) : Bool :=
  s.data.any (fun a => a == c)

/-- Python `s[:n]` for `0 ≤ n ≤ len(s)`. -/
def strTake (s : String) (n : Nat) : String :=
  ⟨s.data.take n⟩

/-- Python `s.split('/')[-1]`: the final path segment of a reference.
`split` never returns an empty list, so the default is never used. -/
def lastSegment (href : String) : String :=
  (strSplit href '/').getLastD ""

/-- The collection cache `self._collections`: a Python `dict` from collection
identifier to `none` (the unresolved placeholder, Python `None`) or a resolved
`Collection`, represented as an insertion-ordered association list with unique
keys. -/
abbrev CollDict := List (String × Option Collection)

/-- Python `d[k]` lookup (wrapped in `Option` for presence):
`some v` when the key is present with value `v`, `none` when absent. -/
def dGet : CollDict → String → Option (Option Collection)
  | [], _ => none
  | (k', v') :: rest, k => if k' = k then some v' else dGet rest k

/-- Python `d[k] = v`: update in place when the key is present (keeping its
position in insertion order), otherwise append the new key at the end. -/
def dictInsert : CollDict → String → Option Collection → CollDict
  | [], k, v => [(k, v)]
  | (k', v') :: rest, k, v =>
    if k' = k then (k', v) :: rest else (k', v') :: dictInsert rest k v

/-- Python `list(d.keys())`: the keys in insertion order. -/
def dictKeys (d : CollDict) : List String :=
  d.map Prod.fst

/-- The state of a `STAC` client object: the normalized URL, the collection
cache, the cached catalog (`none` before the first fetch; the constructor's
`dict()` placeholder has no observable content), the validation flag, and the
precomputed access-token query suffix. -/
structure STAC where
  _url : String
  _collections : CollDict
  _catalog : Option Catalog
  _validate : Bool
  _access_token : String
deriving DecidableEq, Repr

/-- `STAC.__init__(url, validate=False, access_token=None)`:
`url[-1]` raises `IndexError` on the empty string (modelled as `none`);
otherwise a trailing `'/'` is stripped (`url[0:-1]`), the caches start empty,
and the token suffix is `?access_token=<t>` when the token is truthy
(non-`None` and non-empty), else the empty string. -/
def STAC.init (url : String) (validate : Bool) (access_token : Option String) :
    Option STAC :=
  match url.data.getLast? with
  | none => none
  | some lastChar =>
    some ⟨if lastChar ≠ '/' then url else ⟨url.data.dropLast⟩,
          [], none, validate,
          match access_token with
          | some t => if t = "" then "" else "?access_token=" ++ t
          | none => ""⟩

/-- The read-only `url` property: returns `self._url`. -/
def STAC.url (s : STAC) : String := s._url

/-- The `conformance` property: `Utils._get('{}/conformance'.format(self._url))`.
Note the source does not append the access-token suffix here. -/
def STAC.conformanceOp (s : STAC) (server : Server) :
    Except PyError Json × STAC × List Request :=
  match server (s._url ++ "/conformance", none) with
  | none =>
    (Except.error (PyError.httpError (s._url ++ "/conformance")), s,
     [(s._url ++ "/conformance", none)])
  | some data => (Except.ok data, s, [(s._url ++ "/conformance", none)])

/-- The link loop of the `catalog` property.  For each link with
`rel == 'child'`: when `'?' in i.href`, the last path segment is taken and
sliced at `collection_name.index('?')` — which raises `ValueError` when the
last segment itself holds no `'?'` — else the last path segment is used as
is; the identifier is inserted with value `None`.  Returns the cache after
the processed prefix of the links together with the exception, if one was
raised. -/
def processLinks (d : CollDict) : List Link → CollDict × Option PyError
  | [] => (d, none)
  | i :: rest =>
    if i.rel = "child" then
      if strContains i.href '?' then
        match charIdx '?' (lastSegment i.href).data with
        | some n => processLinks (dictInsert d (strTake (lastSegment i.href) n) none) rest
        | none => (d, some (PyError.valueError "substring not found"))
      else
        processLinks (dictInsert d (lastSegment i.href) none) rest
    else processLinks d rest

/-- The `catalog` property.  Fast path: when `len(self._collections) > 0`,
return the keys with no network request.  Otherwise GET
`<url>/stac<token-suffix>`, store the wrapped `Catalog`, run the link loop,
and return the keys.  A transport error propagates before any mutation; a
`ValueError` in the loop propagates after `self._catalog` was set and with
the cache partially filled. -/
def STAC.catalogOp (s : STAC) (server : Server) :
    Except PyError (List String) × STAC × List Request :=
  if s._collections.length > 0 then
    (Except.ok (dictKeys s._collections), s, [])
  else
    match server (s._url ++ "/stac" ++ s._access_token, none) with
    | none =>
      (Except.error (PyError.httpError (s._url ++ "/stac" ++ s._access_token)), s,
       [(s._url ++ "/stac" ++ s._access_token, none)])
    | some data =>
      match processLinks s._collections (Catalog.links ⟨data, s._validate⟩) with
      | (d, some e) =>
        (Except.error e, ⟨s._url, d, some ⟨data, s._validate⟩, s._validate, s._access_token⟩,
         [(s._url ++ "/stac" ++ s._access_token, none)])
      | (d, none) =>
        (Except.ok (dictKeys d), ⟨s._url, d, some ⟨data, s._validate⟩, s._validate, s._access_token⟩,
         [(s._url ++ "/stac" ++ s._access_token, none)])

/-- `STAC.collection(collection_id)`.  Cache hit exactly when the identifier
is present with a non-`None` value.  On a miss, GET
`<url>/collections/<id><token-suffix>`; a transport error is translated into
`KeyError('Could not retrieve information for collection: <id>')` with the
cache untouched; on success the wrapped `Collection` is stored and
returned. -/
def STAC.collectionOp (s : STAC) (server : Server) (collection_id : String) :
    Except PyError Collection × STAC × List Request :=
  match dGet s._collections collection_id with
  | some (some c) => (Except.ok c, s, [])
  | _ =>
    match server (s._url ++ "/collections/" ++ collection_id ++ s._access_token, none) with
    | none =>
      (Except.error (PyError.keyError
        ("Could not retrieve information for collection: " ++ collection_id)),
       s, [(s._url ++ "/collections/" ++ collection_id ++ s._access_token, none)])
    | some data =>
      (Except.ok (⟨data, s._validate⟩ : Collection),
       ⟨s._url, dictInsert s._collections collection_id (some ⟨data, s._validate⟩),
        s._catalog, s._validate, s._access_token⟩,
       [(s._url ++ "/collections/" ++ collection_id ++ s._access_token, none)])

/-- `STAC.search(filter=None)`: GET `<url>/stac/search<token-suffix>` with the
filter as query parameters; the response is wrapped as an `ItemCollection`;
nothing is cached and transport errors propagate unmodified. -/
def STAC.searchOp (s : STAC) (server : Server) (filter : Option Filter) :
    Except PyError ItemCollection × STAC × List Request :=
  match server (s._url ++ "/stac/search" ++ s._access_token, filter) with
  | none =>
    (Except.error (PyError.httpError (s._url ++ "/stac/search" ++ s._access_token)), s,
     [(s._url ++ "/stac/search" ++ s._access_token, filter)])
  | some data =>
    (Except.ok (⟨data, s._validate⟩ : ItemCollection), s,
     [(s._url ++ "/stac/search" ++ s._access_token, filter)])

/-- Whether `t` occurs in `s` as a contiguous run of characters. -/
def occursInChars : List Char → List Char → Bool
  | t, [] => t.isEmpty
  | t, a :: rest => t.isPrefixOf (a :: rest) || occursInChars t rest

/-- Whether the string `t` occurs in the string `s` as a substring. -/
def occursIn (t s : String) : Bool :=
  occursInChars t.data s.data

/-- One client operation of the public interface. -/
inductive Op where
  | getCatalog
  | getCollection (id : String)
  | doSearch (f : Option Filter)
  | getConformance
  | getUrl
deriving Repr

/-- The client state after one operation, the server's behaviour during that
call being given alongside the operation. -/
def step (s : STAC) : Op × Server → STAC
  | (Op.getCatalog, server) => (s.catalogOp server).2.1
  | (Op.getCollection id, server) => (s.collectionOp server id).2.1
  | (Op.doSearch f, server) => (s.searchOp server f).2.1
  | (Op.getConformance, server) => (s.conformanceOp server).2.1
  | (Op.getUrl, _) => s

/-- The client state after a sequence of operations (the server may behave
differently at each call). -/
def run (s : STAC) : List (Op × Server) → STAC
  | [] => s
  | o :: os => run (step s o) os

/-! ### Helper lemmas on strings -/

theorem str_data_append (s t : String) : (s ++ t).data = s.data ++ t.data := by
  cases s
  cases t
  rfl

theorem str_append_empty (s : String) : s ++ "" = s := by
  cases s with
  | mk l =>
    show String.mk (l ++ []) = String.mk l
    rw [List.append_nil]

theorem str_append_assoc (a b c : String) : a ++ b ++ c = a ++ (b ++ c) := by
  cases a
  cases b
  cases c
  show String.mk _ = String.mk _
  rw [List.append_assoc]

theorem str_mk_data (s : String) : String.mk s.data = s := by
  cases s
  rfl

theorem str_eq_of_data_eq (s t : String) (h : s.data = t.data) : s = t := by
  cases s
  cases t
  exact congrArg String.mk h

/-- `take` at the index of the first occurrence of `c` is `takeWhile (· ≠ c)`. -/
theorem take_charIdx (c : Char) :
    ∀ (l : List Char) (n : Nat), charIdx c l = some n →
      l.take n = l.takeWhile (fun a => a ≠ c)
  | [], n, h => by simp [charIdx] at h
  | a :: as, n, h => by
    by_cases hac : a = c
    · simp [charIdx, hac] at h
      subst h
      subst hac
      simp [List.takeWhile]
    · simp [charIdx, hac] at h
      obtain ⟨m, hm, rfl⟩ := h
      simp [List.takeWhile, hac, take_charIdx c as m hm]

/-- `charIdx` finds an index exactly when the character occurs. -/
theorem charIdx_isSome (c : Char) :
    ∀ l : List Char, (charIdx c l).isSome = l.any (fun a => a == c)
  | [] => by simp [charIdx]
  | a :: as => by
    by_cases hac : a = c
    · simp [charIdx, hac]
    · simp [charIdx, hac, charIdx_isSome c as]

/-! ### Helper lemmas on the cache dictionary -/

theorem dGet_dictInsert_self (d : CollDict) (k : String) (v : Option Collection) :
    dGet (dictInsert d k v) k = some v := by
  induction d with
  | nil => simp [dictInsert, dGet]
  | cons p rest ih =>
    obtain ⟨k', v'⟩ := p
    by_cases hk : k' = k
    · simp [dictInsert, hk, dGet]
    · simp [dictInsert, hk, dGet, ih]

theorem dGet_dictInsert_ne (d : CollDict) (k : String) (v : Option Collection)
    (a : String) (h : k ≠ a) : dGet (dictInsert d k v) a = dGet d a := by
  induction d with
  | nil => simp [dictInsert, dGet, h]
  | cons p rest ih =>
    obtain ⟨k', v'⟩ := p
    by_cases hk : k' = k
    · subst hk
      simp [dictInsert, dGet, h]
    · by_cases ha : k' = a
      · subst ha
        simp [dictInsert, hk, dGet]
      · simp [dictInsert, hk, dGet, ha, ih]

theorem dGet_dictInsert_isSome (d : CollDict) (k : String) (v : Option Collection)
    (a : String) (h : (dGet d a).isSome) : (dGet (dictInsert d k v) a).isSome := by
  by_cases hk : k = a
  · subst hk
    rw [dGet_dictInsert_self]
    rfl
  · rwa [dGet_dictInsert_ne d k v a hk]

theorem dGet_isSome_iff_mem (d : CollDict) (k : String) :
    (dGet d k).isSome ↔ k ∈ dictKeys d := by
  induction d with
  | nil => simp [dGet, dictKeys]
  | cons p rest ih =>
    obtain ⟨k', v'⟩ := p
    by_cases hk : k' = k
    · simp [dGet, dictKeys, hk]
    · simp [dGet, dictKeys, hk, ih, Ne.symm hk]

theorem dictKeys_cons (k' : String) (v' : Option Collection) (rest : CollDict) :
    dictKeys ((k', v') :: rest) = k' :: dictKeys rest := rfl

theorem dictKeys_dictInsert (d : CollDict) (k : String) (v : Option Collection) :
    dictKeys (dictInsert d k v)
      = if (dGet d k).isSome then dictKeys d else dictKeys d ++ [k] := by
  induction d with
  | nil => simp [dictInsert, dGet, dictKeys]
  | cons p rest ih =>
    obtain ⟨k', v'⟩ := p
    by_cases hk : k' = k
    · simp [dictInsert, dGet, dictKeys, hk]
    · rw [show dictInsert ((k', v') :: rest) k v = (k', v') :: dictInsert rest k v from
        by simp [dictInsert, hk]]
      rw [dictKeys_cons, dictKeys_cons, ih]
      rw [show dGet ((k', v') :: rest) k = dGet rest k from by simp [dGet, hk]]
      by_cases hs : (dGet rest k).isSome
      · simp [hs]
      · simp [hs]

theorem nodup_dictKeys_dictInsert (d : CollDict) (k : String) (v : Option Collection)
    (h : (dictKeys d).Nodup) : (dictKeys (dictInsert d k v)).Nodup := by
  rw [dictKeys_dictInsert]
  by_cases hs : (dGet d k).isSome
  · simpa [hs] using h
  · have hmem : k ∉ dictKeys d := fun hm => hs ((dGet_isSome_iff_mem d k).2 hm)
    simp [hs, List.nodup_append, h, hmem]

/-! ### Helper lemmas on the catalog link loop -/

theorem processLinks_nodup :
    ∀ (links : List Link) (d d' : CollDict) (e : Option PyError),
      (dictKeys d).Nodup → processLinks d links = (d', e) → (dictKeys d').Nodup
  | [], d, d', e, hnd, h => by
    simp only [processLinks] at h
    cases h
    exact hnd
  | i :: rest, d, d', e, hnd, h => by
    simp only [processLinks] at h
    by_cases hrel : i.rel = "child"
    · rw [if_pos hrel] at h
      by_cases hq : strContains i.href '?'
      · rw [if_pos hq] at h
        cases hidx : charIdx '?' (lastSegment i.href).data with
        | none =>
          rw [hidx] at h
          cases h
          exact hnd
        | some n =>
          rw [hidx] at h
          exact processLinks_nodup rest _ d' e
            (nodup_dictKeys_dictInsert d _ none hnd) h
      · rw [if_neg hq] at h
        exact processLinks_nodup rest _ d' e
          (nodup_dictKeys_dictInsert d _ none hnd) h
    · rw [if_neg hrel] at h
      exact processLinks_nodup rest d d' e hnd h

/-! ### Helper lemmas on the operations -/

theorem init_fields (url : String) (validate : Bool) (tok : Option String) (c : STAC)
    (h : STAC.init url validate tok = some c) :
    c._collections = [] ∧ c._catalog = none ∧ c._validate = validate ∧
    (∀ t, tok = some t → t ≠ "" → c._access_token = "?access_token=" ++ t) ∧
    ((tok = none ∨ tok = some "") → c._access_token = "") := by
  unfold STAC.init at h
  cases hg : url.data.getLast? with
  | none =>
    rw [hg] at h
    exact absurd h (by simp)
  | some lastChar =>
    rw [hg] at h
    injection h with h
    subst h
    refine ⟨rfl, rfl, rfl, ?_, ?_⟩
    · intro t ht hne
      subst ht
      show (if t = "" then "" else "?access_token=" ++ t) = "?access_token=" ++ t
      rw [if_neg hne]
    · intro ht
      rcases ht with ht | ht <;> subst ht <;> rfl

theorem catalogOp_requests (s : STAC) (server : Server) :
    (STAC.catalogOp s server).2.2 = [] ∨
    (STAC.catalogOp s server).2.2 = [(s._url ++ "/stac" ++ s._access_token, none)] := by
  unfold STAC.catalogOp
  by_cases h : s._collections.length > 0
  · rw [if_pos h]
    left
    rfl
  · rw [if_neg h]
    split
    · right
      rfl
    · split
      · right
        rfl
      · right
        rfl

theorem collectionOp_requests (s : STAC) (server : Server) (id : String) :
    (STAC.collectionOp s server id).2.2 = [] ∨
    (STAC.collectionOp s server id).2.2
      = [(s._url ++ "/collections/" ++ id ++ s._access_token, none)] := by
  unfold STAC.collectionOp
  split
  · left
    rfl
  · split
    · right
      rfl
    · right
      rfl

theorem searchOp_requests (s : STAC) (server : Server) (f : Option Filter) :
    (STAC.searchOp s server f).2.2 = [(s._url ++ "/stac/search" ++ s._access_token, f)] := by
  unfold STAC.searchOp
  split
  · rfl
  · rfl

theorem conformanceOp_requests (s : STAC) (server : Server) :
    (STAC.conformanceOp s server).2.2 = [(s._url ++ "/conformance", none)] := by
  unfold STAC.conformanceOp
  split
  · rfl
  · rfl

/-! ### Claim C7 : URL normalization -/

/-- C7: for every client, if the constructor's URL argument ends in the path
separator `'/'`, the stored URL (as returned by the `url` property) equals the
argument with that trailing separator removed; if it does not, the stored URL
equals the argument unchanged. -/
theorem url_normalization (u : String) (validate : Bool) (tok : Option String) (c : STAC)
    (h : STAC.init u validate tok = some c) :
    (∀ pre, u = pre ++ "/" → STAC.url c = pre) ∧
    ((¬ ∃ pre, u = pre ++ "/") → STAC.url c = u) := by
  rcases List.eq_nil_or_concat u.data with hnil | ⟨L, b, hLb⟩
  · unfold STAC.init at h
    rw [hnil] at h
    exact absurd h (by simp)
  · rw [List.concat_eq_append] at hLb
    have hg : u.data.getLast? = some b := by
      rw [hLb]
      exact List.getLast?_concat L
    unfold STAC.init at h
    rw [hg] at h
    injection h with h
    subst h
    constructor
    · intro pre hpre
      have hg2 : u.data.getLast? = some '/' := by
        rw [hpre, str_data_append]
        exact List.getLast?_concat pre.data
      have hb : b = '/' := Option.some.inj (hg.symm.trans hg2)
      subst hb
      show (if ('/' : Char) ≠ '/' then u else String.mk u.data.dropLast) = pre
      rw [if_neg (by simp)]
      have hdrop : u.data.dropLast = pre.data := by
        rw [hpre, str_data_append]
        exact List.dropLast_concat
      rw [hdrop, str_mk_data]
    · intro hnot
      have hb : b ≠ '/' := by
        intro hb
        apply hnot
        subst hb
        exact ⟨String.mk L, str_eq_of_data_eq _ _ (by rw [str_data_append]; exact hLb)⟩
      show (if b ≠ '/' then u else String.mk u.data.dropLast) = u
      rw [if_pos hb]

/-- Concrete clients used by the C7 witness. -/
def stacC7w : STAC := ⟨"http://s", [], none, false, ""⟩

/-- Concrete client (URL without trailing separator) for the C7 witness. -/
def stacC7x : STAC := ⟨"http://t", [], none, false, ""⟩

/-- C7 witness: constructing with `"http://s/"` stores `"http://s"`, and
constructing with `"http://t"` stores `"http://t"` unchanged. -/
theorem url_normalization_witness :
    STAC.url stacC7w = "http://s" ∧ STAC.url stacC7x = "http://t" :=
  ⟨(url_normalization "http://s/" false none stacC7w (by decide)).1 "http://s" (by decide),
   (url_normalization "http://t" false none stacC7x (by decide)).2 (by
      rintro ⟨pre, hp⟩
      have hlast : ("http://t" : String).data.getLast? = some '/' := by
        rw [hp, str_data_append]
        exact List.getLast?_concat pre.data
      exact absurd hlast (by decide))⟩

/-! ### Claim C10 : non-empty URL precondition -/

/-- C10: constructing a client requires a non-empty URL string — `url[-1]`
fails with an out-of-range index on the empty string, so construction yields
no client there, while for every non-empty URL construction succeeds. -/
theorem init_requires_nonempty_url (validate : Bool) (tok : Option String) :
    STAC.init "" validate tok = none ∧
    ∀ url : String, url ≠ "" → (STAC.init url validate tok).isSome := by
  constructor
  · rfl
  · intro url hne
    rcases List.eq_nil_or_concat url.data with hnil | ⟨L, b, hLb⟩
    · exact absurd (str_eq_of_data_eq url "" hnil) hne
    · rw [List.concat_eq_append] at hLb
      unfold STAC.init
      rw [show url.data.getLast? = some b from by rw [hLb]; exact List.getLast?_concat L]
      rfl

/-- C10 witness: construction succeeds on the concrete non-empty URL
`"http://s"`. -/
theorem init_requires_nonempty_url_witness :
    (STAC.init "http://s" false none).isSome :=
  (init_requires_nonempty_url false none).2 "http://s" (by decide)

/-! ### Shared concrete fixtures for witnesses and counterexamples -/

/-- A freshly constructed client for `"http://s"` with no token. -/
def baseClient : STAC := ⟨"http://s", [], none, false, ""⟩

/-- A JSON document with no links. -/
def jsonEmpty : Json := ⟨[], ""⟩

/-- A server that answers every request with the empty document. -/
def srvOk : Server := fun _ => some jsonEmpty

/-- A server that answers every request with an HTTP error. -/
def srvErr : Server := fun _ => none

/-! ### Claim C8 : search is stateless and always requests -/

/-- C8: every invocation of `search` issues exactly one network request, to
`<url>/stac/search<token-suffix>` — even for repeated calls with identical
arguments — and leaves the whole client state, in particular the
collection-identifier cache and the cached catalog, exactly unchanged. -/
theorem search_stateless (s : STAC) (server : Server) (f : Option Filter)
    (r : Except PyError ItemCollection) (s1 : STAC) (reqs : List Request)
    (h : STAC.searchOp s server f = (r, s1, reqs)) :
    s1 = s ∧ reqs = [(STAC.url s ++ "/stac/search" ++ s._access_token, f)] := by
  unfold STAC.searchOp at h
  split at h
  · cases h
    exact ⟨rfl, rfl⟩
  · cases h
    exact ⟨rfl, rfl⟩

/-- C8 witness: a concrete search call keeps the state and issues the single
expected request. -/
theorem search_stateless_witness :
    baseClient = baseClient ∧
    [(("http://s/stac/search" : String), (none : Option Filter))]
      = [(STAC.url baseClient ++ "/stac/search" ++ baseClient._access_token, none)] :=
  search_stateless baseClient srvOk none (Except.ok ⟨jsonEmpty, false⟩) baseClient
    [("http://s/stac/search", none)] (by rfl)

/-! ### Claim C3 : collection error handling -/

/-- C3: if the transport reports an HTTP error during `collection(id)` (the
identifier not being resolved in the cache, so the transport is exercised),
the call fails with the lookup-style `KeyError` whose message contains the
requested identifier as a substring, and the client state — in particular the
collection cache — is exactly as it was before the call. -/
theorem collection_http_error_keyerror (s : STAC) (server : Server) (id : String)
    (hmiss : ∀ c : Collection, dGet s._collections id ≠ some (some c))
    (herr : server (s._url ++ "/collections/" ++ id ++ s._access_token, none) = none) :
    STAC.collectionOp s server id =
      (Except.error (PyError.keyError
        ("Could not retrieve information for collection: " ++ id)),
       s, [(s._url ++ "/collections/" ++ id ++ s._access_token, none)]) ∧
    ∃ pre post, "Could not retrieve information for collection: " ++ id
      = pre ++ (id ++ post) := by
  constructor
  · unfold STAC.collectionOp
    split
    · rename_i c hc
      exact absurd hc (hmiss c)
    · rw [herr]
  · exact ⟨"Could not retrieve information for collection: ", "",
      by rw [str_append_empty]⟩

/-- C3 witness: requesting the unknown identifier `"missing"` from a server
that always errors yields the `KeyError` naming `"missing"` and leaves the
client unchanged. -/
theorem collection_http_error_keyerror_witness :
    STAC.collectionOp baseClient srvErr "missing" =
      (Except.error (PyError.keyError
        ("Could not retrieve information for collection: " ++ "missing")),
       baseClient,
       [(baseClient._url ++ "/collections/" ++ "missing" ++ baseClient._access_token, none)]) :=
  (collection_http_error_keyerror baseClient srvErr "missing"
    (fun _ h => Option.noConfusion h) rfl).1

/-! ### Claim C2 : collection caching -/

/-- C2: if `collection(id)` succeeds, the returned `Collection` is stored in
the cache under `id`, and a second call returns that same cached value
directly with no further network request (whatever the server would answer by
then); the cache-hit path applies exactly when `id` is present in the cache
with a resolved (non-placeholder) value. -/
theorem collection_success_cached (s : STAC) (server : Server) (id : String)
    (c : Collection) (s1 : STAC) (reqs : List Request)
    (h : STAC.collectionOp s server id = (Except.ok c, s1, reqs)) :
    dGet s1._collections id = some (some c) ∧
    (∀ server2 : Server, STAC.collectionOp s1 server2 id = (Except.ok c, s1, [])) ∧
    (reqs = [] ↔ dGet s._collections id = some (some c)) := by
  unfold STAC.collectionOp at h
  split at h
  · rename_i c0 hc0
    cases h
    refine ⟨hc0, ?_, by simp [hc0]⟩
    intro server2
    unfold STAC.collectionOp
    rw [hc0]
  · rename_i hnc
    split at h
    · cases h
    · cases h
      refine ⟨dGet_dictInsert_self .., ?_, ?_⟩
      · intro server2
        unfold STAC.collectionOp
        rw [dGet_dictInsert_self ..]
      · constructor
        · intro hreq
          exact absurd hreq (by simp)
        · intro habs
          exact (hnc _ habs).elim

/-- Cache state after the C2 witness call resolved `"x"`. -/
def stateC2w : STAC := ⟨"http://s", [("x", some ⟨jsonEmpty, false⟩)], none, false, ""⟩

/-- C2 witness: resolving `"x"` on a fresh client stores it, and the second
call is a pure cache hit. -/
theorem collection_success_cached_witness :
    dGet stateC2w._collections "x" = some (some ⟨jsonEmpty, false⟩) ∧
    STAC.collectionOp stateC2w srvOk "x" = (Except.ok ⟨jsonEmpty, false⟩, stateC2w, []) := by
  have h := collection_success_cached baseClient srvOk "x" ⟨jsonEmpty, false⟩ stateC2w
    [("http://s/collections/x", none)] (by rfl)
  exact ⟨h.1, h.2.1 srvOk⟩

/-! ### Claim C1 : catalog caching -/

/-- When the cache holds at least one identifier, `catalog` is a pure cache
read: no request, unchanged state, the current keys in insertion order. -/
theorem catalog_fastpath (s : STAC) (server : Server) (h : s._collections.length > 0) :
    STAC.catalogOp s server = (Except.ok (dictKeys s._collections), s, []) := by
  unfold STAC.catalogOp
  rw [if_pos h]

/-- Python dict assignment never empties the dictionary. -/
theorem dictInsert_ne_nil (d : CollDict) (k : String) (v : Option Collection) :
    dictInsert d k v ≠ [] := by
  cases d with
  | nil => simp [dictInsert]
  | cons p rest =>
    obtain ⟨k', v'⟩ := p
    by_cases hk : k' = k
    · simp [dictInsert, hk]
    · simp [dictInsert, hk]

/-- `collection` never empties a non-empty cache. -/
theorem collectionOp_keeps_nonempty (s : STAC) (server : Server) (id : String)
    (h : s._collections ≠ []) :
    (STAC.collectionOp s server id).2.1._collections ≠ [] := by
  unfold STAC.collectionOp
  split
  · exact h
  · split
    · exact h
    · exact dictInsert_ne_nil _ _ _

/-- C1 (amended): if a `catalog` invocation returns a non-empty identifier
sequence, then every subsequent `catalog` invocation is a pure cache read —
no network request, unchanged state, the same ordered identifier sequence —
whatever the server would answer by then; and this persists after collections
are individually resolved: following any interleaved `collection` call,
`catalog` still answers from the cache alone (returning the then-current
ordered key sequence) with zero requests. -/
theorem catalog_cached_after_nonempty (s : STAC) (server server2 : Server)
    (ids : List String) (s1 : STAC) (reqs : List Request)
    (h : STAC.catalogOp s server = (Except.ok ids, s1, reqs))
    (hne : ids ≠ []) :
    STAC.catalogOp s1 server2 = (Except.ok ids, s1, []) ∧
    (∀ (server3 server4 : Server) (id : String),
      STAC.catalogOp ((s1.collectionOp server3 id).2.1) server4
        = (Except.ok (dictKeys ((s1.collectionOp server3 id).2.1)._collections),
           (s1.collectionOp server3 id).2.1, [])) := by
  unfold STAC.catalogOp at h
  split at h
  · cases h
    have hne1 : s._collections ≠ [] := by
      intro hd
      exact hne (by rw [hd]; rfl)
    refine ⟨?_, ?_⟩
    · rw [catalog_fastpath s server2 (List.length_pos.2 hne1)]
    · intro server3 server4 id
      exact catalog_fastpath _ server4
        (List.length_pos.2 (collectionOp_keeps_nonempty s server3 id hne1))
  · split at h
    · cases h
    · split at h
      · cases h
      · cases h
        rename_i data d heq
        have hne1 : d ≠ [] := by
          intro hd
          exact hne (by rw [hd]; rfl)
        refine ⟨?_, ?_⟩
        · rw [catalog_fastpath _ server2 (List.length_pos.2 hne1)]
        · intro server3 server4 id
          exact catalog_fastpath _ server4
            (List.length_pos.2 (collectionOp_keeps_nonempty _ server3 id hne1))

/-- Catalog document with one child link for `a`. -/
def jsonChildA : Json := ⟨[⟨"child", "http://s/collections/a"⟩], ""⟩

/-- Server answering every request with the one-child catalog document. -/
def srvChildA : Server := fun _ => some jsonChildA

/-- Client state after the first catalog call against `srvChildA`. -/
def stateC1w : STAC := ⟨"http://s", [("a", none)], some ⟨jsonChildA, false⟩, false, ""⟩

/-- C1 witness: after a first catalog call found child `a`, the second call is
answered from the cache even by a server that now always errors. -/
theorem catalog_cached_after_nonempty_witness :
    STAC.catalogOp stateC1w srvErr = (Except.ok ["a"], stateC1w, []) :=
  (catalog_cached_after_nonempty baseClient srvChildA srvErr ["a"] stateC1w
    [("http://s/stac", none)] (by rfl) (by decide)).1

/-- C1 counterexample: on a catalog response with zero child links, the second
`catalog` invocation issues a network request to the catalog endpoint again —
the claimed guarantee of a pure cache read after the first invocation fails
for such a response. -/
theorem catalog_refetches_counterexample :
    STAC.init "http://s" false none = some baseClient ∧
    (STAC.catalogOp baseClient srvOk).1 = Except.ok [] ∧
    (STAC.catalogOp ((STAC.catalogOp baseClient srvOk).2.1) srvOk).2.2
      = [("http://s/stac", none)] :=
  ⟨rfl, rfl, rfl⟩

/-! ### Claim C5 : duplicate child links -/

/-- C5: the identifier sequence `catalog` returns contains each derived
identifier exactly once even when the response repeats a child link (the keys
of the resulting cache are exactly that sequence), and the link processing
never replaces a cache entry holding a resolved `Collection` with an
unresolved placeholder or any other value. -/
theorem catalog_ids_nodup (s : STAC) (server : Server)
    (r : Except PyError (List String)) (s1 : STAC) (reqs : List Request)
    (h : STAC.catalogOp s server = (r, s1, reqs)) :
    ((dictKeys s._collections).Nodup →
      ∀ ids, r = Except.ok ids → ids.Nodup ∧ dictKeys s1._collections = ids) ∧
    (∀ id c, dGet s._collections id = some (some c) →
      dGet s1._collections id = some (some c)) := by
  unfold STAC.catalogOp at h
  split at h
  · cases h
    exact ⟨(fun hnd ids hids => by cases hids; exact ⟨hnd, rfl⟩), fun id c hc => hc⟩
  · rename_i hlen
    have hnil : s._collections = [] :=
      List.eq_nil_of_length_eq_zero (Nat.eq_zero_of_not_pos hlen)
    split at h
    · cases h
      exact ⟨(fun hnd ids hids => by cases hids), fun id c hc => hc⟩
    · split at h
      · cases h
        refine ⟨(fun hnd ids hids => by cases hids), fun id c hc => ?_⟩
        rw [hnil] at hc
        exact Option.noConfusion hc
      · cases h
        rename_i data d heq
        refine ⟨fun hnd ids hids => ?_, fun id c hc => ?_⟩
        · cases hids
          exact ⟨processLinks_nodup _ s._collections d none hnd heq, rfl⟩
        · rw [hnil] at hc
          exact Option.noConfusion hc

/-- Catalog document with child links `a`, `b` and a duplicate `a`. -/
def jsonABA : Json :=
  ⟨[⟨"child", "http://s/collections/a"⟩, ⟨"child", "http://s/collections/b"⟩,
    ⟨"child", "http://s/collections/a"⟩], ""⟩

/-- Server answering every request with the duplicated-child catalog. -/
def srvABA : Server := fun _ => some jsonABA

/-- Client state after the catalog call against `srvABA`. -/
def stateC5w : STAC := ⟨"http://s", [("a", none), ("b", none)], some ⟨jsonABA, false⟩, false, ""⟩

/-- C5 witness: child links `a`, `b`, `a` yield exactly the duplicate-free
sequence `[a, b]`, which is the key sequence of the resulting cache. -/
theorem catalog_ids_nodup_witness :
    (["a", "b"] : List String).Nodup ∧ dictKeys stateC5w._collections = ["a", "b"] :=
  (catalog_ids_nodup baseClient srvABA (Except.ok ["a", "b"]) stateC5w
    [("http://s/stac", none)] (by rfl)).1 (by decide) ["a", "b"] rfl

/-! ### Claim C4 : identifier derivation from child hrefs -/

/-- C4 (amended): for a child link, when the href holds no `'?'` the derived
identifier is the final path segment unchanged; when the final path segment
holds a `'?'` the derived identifier is that segment truncated at the first
`'?'`; but when the href holds a `'?'` and its final path segment does not
(the `'?'` occurs before the final segment), the derivation does not succeed
— it raises `ValueError`. -/
theorem child_link_derivation (href : String) :
    (strContains href '?' = false →
      processLinks [] [⟨"child", href⟩] = ([(lastSegment href, none)], none)) ∧
    (strContains href '?' = true → strContains (lastSegment href) '?' = true →
      ∃ n, charIdx '?' (lastSegment href).data = some n ∧
        processLinks [] [⟨"child", href⟩] = ([(strTake (lastSegment href) n, none)], none) ∧
        (strTake (lastSegment href) n).data
          = (lastSegment href).data.takeWhile (fun a => a ≠ '?')) ∧
    (strContains href '?' = true → strContains (lastSegment href) '?' = false →
      processLinks [] [⟨"child", href⟩]
        = ([], some (PyError.valueError "substring not found"))) := by
  refine ⟨?_, ?_, ?_⟩
  · intro hq
    simp only [processLinks, hq]
    rfl
  · intro hq hseg
    have hidx : (charIdx '?' (lastSegment href).data).isSome := by
      rw [charIdx_isSome]
      exact hseg
    obtain ⟨n, hn⟩ := Option.isSome_iff_exists.1 hidx
    refine ⟨n, hn, ?_, ?_⟩
    · simp only [processLinks, hq, hn]
      rfl
    · exact take_charIdx '?' (lastSegment href).data n hn
  · intro hq hseg
    cases hi : charIdx '?' (lastSegment href).data with
    | some m =>
      exfalso
      have hs := charIdx_isSome '?' (lastSegment href).data
      rw [hi] at hs
      rw [show ((lastSegment href).data.any (fun a => a == '?')) = false from hseg] at hs
      exact Bool.noConfusion hs
    | none =>
      simp only [processLinks, hq, hi]
      simp

/-- Catalog document whose single child href has its `'?'` before the final
path segment. -/
def jsonBadQ : Json := ⟨[⟨"child", "http://s/collections/a?b=c/d"⟩], ""⟩

/-- Server answering every request with the early-`'?'` catalog document. -/
def srvBadQ : Server := fun _ => some jsonBadQ

/-- C4 counterexample: for the child href `http://s/collections/a?b=c/d`,
whose `'?'` occurs before the final path segment, the derivation fails — the
catalog access raises `ValueError` — contradicting the claim that derivation
succeeds for every href. -/
theorem catalog_derivation_fails_counterexample :
    STAC.init "http://s" false none = some baseClient ∧
    (STAC.catalogOp baseClient srvBadQ).1
      = Except.error (PyError.valueError "substring not found") :=
  ⟨rfl, rfl⟩

/-- C4 witness: for the child href ending in `mycoll?foo=bar`, the derived
identifier is the final segment truncated at the first `'?'` — `mycoll`. -/
theorem child_link_derivation_witness :
    (∃ n, charIdx '?' (lastSegment "http://s/collections/mycoll?foo=bar").data = some n ∧
      processLinks [] [⟨"child", "http://s/collections/mycoll?foo=bar"⟩]
        = ([(strTake (lastSegment "http://s/collections/mycoll?foo=bar") n, none)], none) ∧
      (strTake (lastSegment "http://s/collections/mycoll?foo=bar") n).data
        = (lastSegment "http://s/collections/mycoll?foo=bar").data.takeWhile
            (fun a => a ≠ '?')) ∧
    strTake (lastSegment "http://s/collections/mycoll?foo=bar") 6 = "mycoll" :=
  ⟨(child_link_derivation "http://s/collections/mycoll?foo=bar").2.1 (by decide) (by decide),
   by decide⟩

/-! ### Claim C6 : access-token query suffix -/

/-- C6 (amended): with a (non-empty) access token configured, every request
URL generated by `catalog`, `collection` and `search` carries the literal
suffix `?access_token=<token>` at its end; the `conformance` request URL,
however, is exactly `<url>/conformance` with no token suffix appended.
Without a token (or with an empty one) the appended suffix is empty: the
generated URLs are exactly the bare endpoint paths. -/
theorem request_urls_token_suffix (url : String) (validate : Bool) (tok : Option String)
    (c : STAC) (server : Server) (id : String) (f : Option Filter)
    (hinit : STAC.init url validate tok = some c) :
    (∀ t, tok = some t → t ≠ "" →
      (∀ r ∈ (STAC.catalogOp c server).2.2,
        r.1 = (c._url ++ "/stac") ++ ("?access_token=" ++ t)) ∧
      (∀ r ∈ (STAC.collectionOp c server id).2.2,
        r.1 = (c._url ++ "/collections/" ++ id) ++ ("?access_token=" ++ t)) ∧
      (∀ r ∈ (STAC.searchOp c server f).2.2,
        r.1 = (c._url ++ "/stac/search") ++ ("?access_token=" ++ t))) ∧
    ((tok = none ∨ tok = some "") →
      (∀ r ∈ (STAC.catalogOp c server).2.2, r.1 = c._url ++ "/stac") ∧
      (∀ r ∈ (STAC.collectionOp c server id).2.2,
        r.1 = c._url ++ "/collections/" ++ id) ∧
      (∀ r ∈ (STAC.searchOp c server f).2.2, r.1 = c._url ++ "/stac/search")) ∧
    (∀ r ∈ (STAC.conformanceOp c server).2.2, r.1 = c._url ++ "/conformance") := by
  obtain ⟨-, -, -, htok, htokE⟩ := init_fields url validate tok c hinit
  refine ⟨?_, ?_, ?_⟩
  · intro t ht hne
    have ha : c._access_token = "?access_token=" ++ t := htok t ht hne
    refine ⟨?_, ?_, ?_⟩
    · intro r hr
      rcases catalogOp_requests c server with hreq | hreq
      · rw [hreq] at hr
        exact absurd hr (List.not_mem_nil r)
      · rw [hreq, List.mem_singleton] at hr
        subst hr
        rw [show ((c._url ++ "/stac" ++ c._access_token, (none : Option Filter))).1
            = c._url ++ "/stac" ++ c._access_token from rfl, ha]
    · intro r hr
      rcases collectionOp_requests c server id with hreq | hreq
      · rw [hreq] at hr
        exact absurd hr (List.not_mem_nil r)
      · rw [hreq, List.mem_singleton] at hr
        subst hr
        rw [show ((c._url ++ "/collections/" ++ id ++ c._access_token,
            (none : Option Filter))).1
            = c._url ++ "/collections/" ++ id ++ c._access_token from rfl, ha]
    · intro r hr
      rw [searchOp_requests, List.mem_singleton] at hr
      subst hr
      rw [show ((c._url ++ "/stac/search" ++ c._access_token, f)).1
          = c._url ++ "/stac/search" ++ c._access_token from rfl, ha]
  · intro ht
    have ha : c._access_token = "" := htokE ht
    refine ⟨?_, ?_, ?_⟩
    · intro r hr
      rcases catalogOp_requests c server with hreq | hreq
      · rw [hreq] at hr
        exact absurd hr (List.not_mem_nil r)
      · rw [hreq, List.mem_singleton] at hr
        subst hr
        rw [show ((c._url ++ "/stac" ++ c._access_token, (none : Option Filter))).1
            = c._url ++ "/stac" ++ c._access_token from rfl, ha, str_append_empty]
    · intro r hr
      rcases collectionOp_requests c server id with hreq | hreq
      · rw [hreq] at hr
        exact absurd hr (List.not_mem_nil r)
      · rw [hreq, List.mem_singleton] at hr
        subst hr
        rw [show ((c._url ++ "/collections/" ++ id ++ c._access_token,
            (none : Option Filter))).1
            = c._url ++ "/collections/" ++ id ++ c._access_token from rfl, ha,
          str_append_empty]
    · intro r hr
      rw [searchOp_requests, List.mem_singleton] at hr
      subst hr
      rw [show ((c._url ++ "/stac/search" ++ c._access_token, f)).1
          = c._url ++ "/stac/search" ++ c._access_token from rfl, ha, str_append_empty]
  · intro r hr
    rw [conformanceOp_requests, List.mem_singleton] at hr
    subst hr
    rfl

/-- Client as constructed with URL `"http://s"` and access token `"t"`. -/
def tokClient : STAC := ⟨"http://s", [], none, false, "?access_token=t"⟩

/-- C6 counterexample: for a client constructed with access token `"t"`, the
URL of the request generated by the `conformance` property does not contain
the suffix `?access_token=t` — the claim that every operation's request URL
carries it fails on `conformance`. -/
theorem conformance_lacks_token_counterexample :
    STAC.init "http://s" false (some "t") = some tokClient ∧
    (STAC.conformanceOp tokClient srvOk).2.2 = [("http://s/conformance", none)] ∧
    occursIn "?access_token=t" "http://s/conformance" = false :=
  ⟨rfl, rfl, by decide⟩

/-- C6 witness: the catalog request URL of the token-carrying client ends with
the literal token suffix. -/
theorem request_urls_token_suffix_witness :
    ("http://s/stac?access_token=t" : String)
      = (tokClient._url ++ "/stac") ++ ("?access_token=" ++ "t") := by
  have h := request_urls_token_suffix "http://s" false (some "t") tokClient srvOk "x"
    none (by rfl)
  exact (h.1 "t" rfl (by decide)).1 ("http://s/stac?access_token=t", none) (by decide)

/-! ### Claim C9 : cache keys grow, resolved entries persist -/

/-- A single operation preserves every present cache key and every resolved
cache entry. -/
theorem step_preserves (s : STAC) (o : Op × Server) (id : String) :
    ((dGet s._collections id).isSome → (dGet (step s o)._collections id).isSome) ∧
    (∀ c, dGet s._collections id = some (some c) →
      dGet (step s o)._collections id = some (some c)) := by
  obtain ⟨op, server⟩ := o
  cases op with
  | getCatalog =>
    simp only [step]
    unfold STAC.catalogOp
    split
    · exact ⟨fun h => h, fun c h => h⟩
    · rename_i hlen
      have hnil : s._collections = [] :=
        List.eq_nil_of_length_eq_zero (Nat.eq_zero_of_not_pos hlen)
      constructor
      · intro h
        rw [hnil] at h
        exact absurd h (by simp [dGet])
      · intro c h
        rw [hnil] at h
        exact Option.noConfusion h
  | getCollection cid =>
    simp only [step]
    unfold STAC.collectionOp
    split
    · exact ⟨fun h => h, fun c h => h⟩
    · rename_i hnc
      split
      · exact ⟨fun h => h, fun c h => h⟩
      · constructor
        · intro h
          show (dGet (dictInsert s._collections cid _) id).isSome = true
          exact dGet_dictInsert_isSome _ _ _ _ h
        · intro c h
          by_cases hid : cid = id
          · subst hid
            exact (hnc _ h).elim
          · show dGet (dictInsert s._collections cid _) id = some (some c)
            rw [dGet_dictInsert_ne _ _ _ _ hid]
            exact h
  | doSearch f =>
    simp only [step]
    unfold STAC.searchOp
    split
    · exact ⟨fun h => h, fun c h => h⟩
    · exact ⟨fun h => h, fun c h => h⟩
  | getConformance =>
    simp only [step]
    unfold STAC.conformanceOp
    split
    · exact ⟨fun h => h, fun c h => h⟩
    · exact ⟨fun h => h, fun c h => h⟩
  | getUrl => exact ⟨fun h => h, fun c h => h⟩

/-- C9: across every sequence of operations (catalog, collection, search,
conformance, url), the key set of the collection cache never loses a key, and
once a key maps to a resolved `Collection`, every later state maps it to
exactly that value — it is never replaced by an unresolved placeholder or a
different value. -/
theorem cache_monotone (tr : List (Op × Server)) :
    ∀ (s : STAC) (id : String),
    ((dGet s._collections id).isSome → (dGet (run s tr)._collections id).isSome) ∧
    (∀ c, dGet s._collections id = some (some c) →
      dGet (run s tr)._collections id = some (some c)) := by
  induction tr with
  | nil => exact fun s id => ⟨fun h => h, fun c h => h⟩
  | cons o os ih =>
    intro s id
    constructor
    · intro h
      exact (ih (step s o) id).1 ((step_preserves s o id).1 h)
    · intro c h
      exact (ih (step s o) id).2 c ((step_preserves s o id).2 c h)

/-- The resolved collection used by the C9 witness. -/
def collW : Collection := ⟨jsonEmpty, false⟩

/-- Client whose cache resolves `"x"`, start state of the C9 witness. -/
def stateC9w : STAC := ⟨"http://s", [("x", some collW)], none, false, ""⟩

/-- A concrete operation sequence exercising every operation kind. -/
def traceC9w : List (Op × Server) :=
  [(Op.getCatalog, srvOk), (Op.doSearch none, srvOk), (Op.getConformance, srvErr),
   (Op.getCollection "y", srvOk), (Op.getUrl, srvOk)]

/-- C9 witness: after running a trace with every operation kind, the resolved
entry for `"x"` is still exactly the original collection object. -/
theorem cache_monotone_witness :
    dGet (run stateC9w traceC9w)._collections "x" = some (some collW) :=
  (cache_monotone traceC9w stateC9w "x").2 collW (by rfl)

end StacPy
